import Mathlib

/-!
Verification of the streaming speech-to-text pipeline of this repository:
the server-side per-connection WebSocket session (src/main.py,
websocket_endpoint) and the two capture clients
(src/Clients/Client-Ws.py and src/Clients/Client-WS-Desktopaudio.py).

The recognition engine (vosk KaldiRecognizer) and the voice-activity
classifier (webrtcvad) are external native libraries; they are modelled as
opaque capabilities: an abstract `Recognizer` record of operations over an
abstract state type, and an abstract oracle function for the VAD.
All Python byte strings are modelled as `List Nat`.
-/

namespace SpeakToText

/-! ## Numeric configuration constants

Verified values of the Python constant expressions (float arithmetic in
the source truncates to the integers below):
  SAMPLE_RATE = 16000, VAD_FRAME_MS = 30,
  VAD_FRAME_SAMPLES = int(16000 * (30/1000)) = 480,
  VAD_FRAME_BYTES   = 480 * 2 * 1 = 960,
  SILENCE_FRAMES_THRESHOLD = int(500 / 30) = 16.
These appear identically in both client scripts. -/

def VAD_FRAME_SAMPLES : Nat := 480

def BYTES_PER_SAMPLE : Nat := 2

def CHANNELS : Nat := 1

def VAD_FRAME_BYTES : Nat := VAD_FRAME_SAMPLES * BYTES_PER_SAMPLE * CHANNELS

def SILENCE_FRAMES_THRESHOLD : Nat := 500 / 30

/-! ## Server side: src/main.py -/

/-- Opaque model of the vosk KaldiRecognizer over an abstract state type.
AcceptWaveform consumes bytes and reports an utterance boundary;
PartialResult is a pure observation of the current state (it does not
mutate the engine); Result and FinalResult observe and flush state. -/
structure Recognizer (ρ : Type) where
  acceptWaveform : ρ → List Nat → Bool × ρ
  partialResult : ρ → String
  result : ρ → String × ρ
  finalResult : ρ → String × ρ

/-- Messages the server sends to the client: a JSON object with a
"partial" key, or one with a "text" key (a final utterance). -/
inductive ServerMsg where
  | partialMsg (text : String)
  | finalMsg (text : String)
deriving DecidableEq, Repr

/-- True exactly on provisional (partial) messages. -/
def isPartialMsg : ServerMsg → Bool
  | .partialMsg _ => true
  | .finalMsg _ => false

/-- True exactly on final messages. -/
def isFinalMsg : ServerMsg → Bool
  | .partialMsg _ => false
  | .finalMsg _ => true

/-- One iteration of the server Active loop on received bytes,
translated from src/main.py lines 158-178:
AcceptWaveform; PartialResult, emitted if non-empty; then if the boundary
flag was true, Result is computed and emitted if non-empty, and otherwise
PartialResult is computed a second time (on the unchanged engine state)
and emitted again if non-empty. Returns the new engine state and the
messages sent for this chunk, in order. -/
def chunkStep {ρ : Type} (R : Recognizer ρ) (st : ρ) (data : List Nat) :
    ρ × List ServerMsg :=
  let a := R.acceptWaveform st data
  let processed := a.1
  let st1 := a.2
  let partialText := R.partialResult st1
  let msgs1 := if partialText = "" then [] else [ServerMsg.partialMsg partialText]
  if processed then
    let r := R.result st1
    (r.2, msgs1 ++ (if r.1 = "" then [] else [ServerMsg.finalMsg r.1]))
  else
    let p2 := R.partialResult st1
    (st1, msgs1 ++ (if p2 = "" then [] else [ServerMsg.partialMsg p2]))

/-- An event observed by one iteration of the server Active loop:
either bytes arrived within the receive window, or the receive timed out
(asyncio.TimeoutError after RECEIVE_TIMEOUT). -/
inductive LoopEvent where
  | bytes (data : List Nat)
  | timeout
deriving DecidableEq, Repr

/-- One iteration of the Active loop (src/main.py lines 151-184).
The timeout branch computes FinalResult and sends a final message iff its
text is non-empty; the loop is not exited by a timeout. -/
def loopStep {ρ : Type} (R : Recognizer ρ) (st : ρ) :
    LoopEvent → ρ × List ServerMsg
  | .bytes d => chunkStep R st d
  | .timeout =>
    let f := R.finalResult st
    (f.2, if f.1 = "" then [] else [ServerMsg.finalMsg f.1])

/-- The Active loop run over a finite schedule of events: every event is
processed in order (no event terminates the loop); returns the final
engine state and the concatenation of all messages sent. -/
def runActive {ρ : Type} (R : Recognizer ρ) (st : ρ) :
    List LoopEvent → ρ × List ServerMsg
  | [] => (st, [])
  | e :: evts =>
    let s := loopStep R st e
    let rest := runActive R s.1 evts
    (rest.1, s.2 ++ rest.2)

/-- The way the server Active loop was exited, mirroring the except
clauses of src/main.py lines 187-204: fastapi WebSocketDisconnect (the
inbound close/disconnect), websockets ConnectionClosedOK, websockets
ConnectionClosedError (stream error), or any other exception. -/
inductive ExitCause where
  | wsDisconnect (code : Nat)
  | closedOK
  | closedError (code : Nat)
  | otherError
deriving DecidableEq, Repr

/-- What the teardown code of src/main.py lines 187-206 does on each exit
path, given the text FinalResult would return: whether
recognizer.FinalResult() is computed, whether its (non-empty) text is
logged, and the close code sent by the handler, if any. Only the
WebSocketDisconnect handler (lines 187-193) touches the recognizer; the
ConnectionClosedOK, ConnectionClosedError and generic handlers only log,
the generic one also attempting close(code=1011). -/
def sessionTeardown (finalText : String) : ExitCause → Bool × Bool × Option Nat
  | .wsDisconnect _ => (true, finalText ≠ "", none)
  | .closedOK => (false, false, none)
  | .closedError _ => (false, false, none)
  | .otherError => (false, false, some 1011)

/-- Outcome of connection setup (src/main.py lines 135-147): either the
connection is rejected with a close code and reason before being
accepted, or it is accepted; the Bool records whether a KaldiRecognizer
was constructed for the connection. -/
inductive SetupOutcome where
  | rejected (code : Nat) (reason : String)
  | accepted
deriving DecidableEq, Repr

/-- Connection setup, translated from src/main.py lines 135-147. The set
of loaded language codes is a parameter (main.py consults
model_loader.get_all(); the ModelLoader accessor itself lives outside
the session code, so the loaded set is abstracted as a list of codes).
If the requested code is not loaded, the server closes with code 1008
and a human-readable reason and returns at once - no accept, no
recognizer. Otherwise it accepts and constructs one fresh recognizer. -/
def connectionSetup (loadedLangs : List String) (langCode : String) :
    SetupOutcome × Bool :=
  if langCode ∈ loadedLangs then
    (SetupOutcome.accepted, true)
  else
    (SetupOutcome.rejected 1008 ("Unsupported language: " ++ langCode), false)

/-! ## Client side: transmission queue -/

/-- asyncio.Queue.put_nowait modelled on a list: the queue is full iff a
positive maxsize was configured and the length has reached it; put_nowait
raises QueueFull (here: `none`) when full and otherwise appends. Both
client scripts construct `asyncio.Queue()`, i.e. maxsize = 0, unbounded. -/
def queuePutNowait {α : Type} (maxsize : Nat) (q : List α) (x : α) :
    Option (List α) :=
  if 0 < maxsize ∧ maxsize ≤ q.length then none else some (q ++ [x])

/-- The producer-side enqueue of src/Clients/Client-Ws.py process_vad
(lines 89-92 and 101-104): put_nowait on the module-level
`audio_queue = asyncio.Queue()` (line 57, maxsize 0), with
`except asyncio.QueueFull: pass` dropping the item when the call raises. -/
def clientWsEnqueue {α : Type} (q : List α) (x : α) : List α :=
  match queuePutNowait 0 q x with
  | some q2 => q2
  | none => q

/-- The producer-side enqueue of src/Clients/Client-WS-Desktopaudio.py
process_vad (lines 97-105): the frame is put (via
run_coroutine_threadsafe onto the unbounded queue) only when
audio_queue.qsize() < 50; otherwise it is dropped. -/
def desktopEnqueue {α : Type} (q : List α) (x : α) : List α :=
  if q.length < 50 then q ++ [x] else q

/-! ## Client side: voice-activity gate (process_vad) -/

/-- The gate state shared by both clients: the module-level globals
`speaking` and `silence_frames_count`. -/
structure GateState where
  speaking : Bool
  silenceRun : Nat
deriving DecidableEq, Repr

/-- Forward/drop decision of the gate for one frame. -/
inductive Decision where
  | forward
  | drop
deriving DecidableEq, Repr

/-- Result of one process_vad call: the updated gate state, the queue
after any enqueue, the forward/drop decision taken, and whether the
"[VAD] Speech started" transition (not speaking -> speaking) fired. -/
structure VadOutcome where
  state : GateState
  queue : List (List Nat)
  decision : Decision
  speechStarted : Bool
deriving DecidableEq, Repr

/-- process_vad of src/Clients/Client-Ws.py (lines 71-104), translated
with the webrtcvad classifier abstracted as `oracle`. A frame whose
length is not VAD_FRAME_BYTES returns at once (warning only). A speech
frame resets silence_frames_count to 0, sets speaking, and is enqueued
when send_audio_enabled. A non-speech frame while speaking increments
silence_frames_count; past SILENCE_FRAMES_THRESHOLD speaking is cleared
and the frame dropped, otherwise the frame is enqueued (silence padding)
when send_audio_enabled. A non-speech frame while not speaking does
nothing. -/
def processVadWs (oracle : List Nat → Bool) (sendEnabled : Bool)
    (st : GateState) (q : List (List Nat)) (frame : List Nat) : VadOutcome :=
  if frame.length ≠ VAD_FRAME_BYTES then
    ⟨st, q, Decision.drop, false⟩
  else if oracle frame then
    ⟨⟨true, 0⟩, if sendEnabled then clientWsEnqueue q frame else q,
      Decision.forward, !st.speaking⟩
  else if st.speaking then
    if SILENCE_FRAMES_THRESHOLD < st.silenceRun + 1 then
      ⟨⟨false, st.silenceRun + 1⟩, q, Decision.drop, false⟩
    else
      ⟨⟨true, st.silenceRun + 1⟩,
        if sendEnabled then clientWsEnqueue q frame else q,
        Decision.forward, false⟩
  else
    ⟨st, q, Decision.drop, false⟩

/-- process_vad of src/Clients/Client-WS-Desktopaudio.py (lines 75-108),
translated with the classifier abstracted as `oracle`. Same gate logic
as the microphone client (here via the local `should_send`), but the
enqueue is additionally guarded by the event loop running and by
audio_queue.qsize() < 50; there is no speech-started print, so that
field is derived the same way from the speaking transition. -/
def processVadDesktop (oracle : List Nat → Bool) (sendEnabled : Bool)
    (loopRunning : Bool) (st : GateState) (q : List (List Nat))
    (frame : List Nat) : VadOutcome :=
  if frame.length ≠ VAD_FRAME_BYTES then
    ⟨st, q, Decision.drop, false⟩
  else if oracle frame then
    ⟨⟨true, 0⟩,
      if sendEnabled && loopRunning then desktopEnqueue q frame else q,
      Decision.forward, !st.speaking⟩
  else if st.speaking then
    if SILENCE_FRAMES_THRESHOLD < st.silenceRun + 1 then
      ⟨⟨false, st.silenceRun + 1⟩, q, Decision.drop, false⟩
    else
      ⟨⟨true, st.silenceRun + 1⟩,
        if sendEnabled && loopRunning then desktopEnqueue q frame else q,
        Decision.forward, false⟩
  else
    ⟨st, q, Decision.drop, false⟩

/-- A run of the microphone-client gate over a list of frames, threading
gate state and queue and recording each decision in order. -/
def runVadWs (oracle : List Nat → Bool) (sendEnabled : Bool)
    (st : GateState) (q : List (List Nat)) :
    List (List Nat) → GateState × List (List Nat) × List Decision
  | [] => (st, q, [])
  | f :: fs =>
    let o := processVadWs oracle sendEnabled st q f
    let rest := runVadWs oracle sendEnabled o.state o.queue fs
    (rest.1, rest.2.1, o.decision :: rest.2.2)

/-! ## Client side: frame segmenter

Both clients keep a residue `temp_audio_buffer` and run
  while len(temp_audio_buffer) >= VAD_FRAME_BYTES:
      emit temp_audio_buffer[:VAD_FRAME_BYTES]
      del temp_audio_buffer[:VAD_FRAME_BYTES]
(src/Clients/Client-Ws.py lines 124-132, Client-WS-Desktopaudio.py lines
146-151). Each iteration removes n >= 1 bytes, so the loop runs at most
`buf.length` times; the recursion below carries that bound as structural
fuel and, for 0 < n, satisfies exactly the defining equations of the
while loop (proved as deframe_cons / deframe_stop). -/

/-- Fueled frame extraction: while fuel remains and the buffer holds at
least one frame of n bytes, emit the first n bytes and continue on the
rest. Returns the emitted frames in order and the final residue. -/
def deframeAux {α : Type} (fuel n : Nat) (buf : List α) :
    List (List α) × List α :=
  match fuel with
  | 0 => ([], buf)
  | fuel + 1 =>
    if 0 < n ∧ n ≤ buf.length then
      let p := deframeAux fuel n (buf.drop n)
      (buf.take n :: p.1, p.2)
    else ([], buf)

/-- The segmenter while loop: emit every complete n-byte frame from the
buffer, leaving the residue. -/
def deframe {α : Type} (n : Nat) (buf : List α) : List (List α) × List α :=
  deframeAux buf.length n buf

/-- One capture block fed through the segmenter: the converted bytes are
appended to the residue and all complete frames are extracted
(Client-Ws.py lines 124-132 with VAD_FRAME_BYTES = 960). Returns the
frames emitted for this block and the new residue. -/
def feedBlock (residue chunk : List Nat) : List (List Nat) × List Nat :=
  deframe VAD_FRAME_BYTES (residue ++ chunk)

/-- A sequence of capture blocks fed through the segmenter in order,
threading the residue; returns all frames emitted, in order, and the
final residue. -/
def feedBlocks (residue : List Nat) :
    List (List Nat) → List (List Nat) × List Nat
  | [] => ([], residue)
  | c :: cs =>
    let p := feedBlock residue c
    let rest := feedBlocks p.2 cs
    (p.1 ++ rest.1, rest.2)

/-! ## Client side: capture-block validation

src/Clients/Client-WS-Desktopaudio.py audio_capture_thread (lines
138-151): a block whose samples contain NaN or Inf is skipped with
`continue` before conversion and segmentation; otherwise the block is
clipped, converted to int16 bytes and segmented. The float samples and
the int16 conversion are opaque here: a block is modelled by the result
of the np.isnan/np.isinf test together with the bytes its conversion
would produce. src/Clients/Client-Ws.py audio_callback (lines 119-132)
performs no such test: every block is converted (numpy astype raises no
exception on NaN) and segmented. -/

/-- A captured audio block: `malformed` is the value of
np.isnan(data).any() or np.isinf(data).any() on its samples, and
`payload` is the byte string its int16 conversion produces. -/
structure Block where
  malformed : Bool
  payload : List Nat
deriving DecidableEq, Repr

/-- One loop iteration of the desktop-audio capture thread on a block:
malformed blocks are skipped entirely (no frames, residue untouched);
valid blocks are segmented. -/
def desktopCaptureStep (residue : List Nat) (b : Block) :
    List (List Nat) × List Nat :=
  if b.malformed then ([], residue)
  else feedBlock residue b.payload

/-- One audio_callback of the microphone client on a block: the block is
always converted and segmented; there is no malformed-sample check. -/
def clientWsCaptureStep (residue : List Nat) (b : Block) :
    List (List Nat) × List Nat :=
  feedBlock residue b.payload

/-! ## Lemmas about the frame segmenter -/

/-- The fuel argument of deframeAux is irrelevant once it bounds the
buffer length. -/
lemma deframeAux_congr {α : Type} (n : Nat) :
    ∀ (f g : Nat) (buf : List α), buf.length ≤ f → buf.length ≤ g →
      deframeAux f n buf = deframeAux g n buf := by
  intro f
  induction f with
  | zero =>
    intro g buf hf _
    have hb : buf = [] := List.eq_nil_of_length_eq_zero (Nat.le_zero.mp hf)
    subst hb
    have hno : ¬(0 < n ∧ n ≤ ([] : List α).length) := by
      simp only [List.length_nil]
      omega
    cases g with
    | zero => rfl
    | succ g =>
      simp only [deframeAux]
      rw [if_neg hno]
  | succ f ih =>
    intro g buf hf hg
    cases g with
    | zero =>
      have hb : buf = [] := List.eq_nil_of_length_eq_zero (Nat.le_zero.mp hg)
      subst hb
      have hno : ¬(0 < n ∧ n ≤ ([] : List α).length) := by
        simp only [List.length_nil]
        omega
      simp only [deframeAux]
      rw [if_neg hno]
    | succ g =>
      simp only [deframeAux]
      by_cases hc : 0 < n ∧ n ≤ buf.length
      · rw [if_pos hc, if_pos hc]
        have hd : (buf.drop n).length = buf.length - n := List.length_drop n buf
        rw [ih g (buf.drop n) (by omega) (by omega)]
      · rw [if_neg hc, if_neg hc]

/-- Defining equation of the segmenter while loop when a full frame is
available. -/
lemma deframe_cons {α : Type} {n : Nat} (hn : 0 < n) {buf : List α}
    (h : n ≤ buf.length) :
    deframe n buf =
      (buf.take n :: (deframe n (buf.drop n)).1, (deframe n (buf.drop n)).2) := by
  unfold deframe
  obtain ⟨m, hm⟩ : ∃ m, buf.length = m + 1 := ⟨buf.length - 1, by omega⟩
  rw [hm]
  simp only [deframeAux]
  rw [if_pos ⟨hn, h⟩]
  have hd : (buf.drop n).length = buf.length - n := List.length_drop n buf
  rw [deframeAux_congr n m (buf.drop n).length (buf.drop n) (by omega) (by omega)]

/-- Defining equation of the segmenter while loop when no full frame is
available: everything stays in the residue. -/
lemma deframe_stop {α : Type} {n : Nat} {buf : List α} (h : buf.length < n) :
    deframe n buf = ([], buf) := by
  unfold deframe
  cases hl : buf.length with
  | zero => rfl
  | succ m =>
    simp only [deframeAux]
    rw [if_neg (by omega)]

/-- Core segmenter invariants, by induction on a bound of the buffer
length: the frames concatenated with the residue restore the buffer, all
frames have length n, the residue has length `buf.length % n`, and
`buf.length / n` frames are emitted. -/
lemma deframe_spec {α : Type} {n : Nat} (hn : 0 < n) :
    ∀ (k : Nat) (buf : List α), buf.length ≤ k →
      (deframe n buf).1.flatten ++ (deframe n buf).2 = buf ∧
      (∀ fr ∈ (deframe n buf).1, fr.length = n) ∧
      (deframe n buf).2.length = buf.length % n ∧
      (deframe n buf).1.length = buf.length / n := by
  intro k
  induction k with
  | zero =>
    intro buf hk
    have hb : buf = [] := List.eq_nil_of_length_eq_zero (Nat.le_zero.mp hk)
    subst hb
    rw [deframe_stop (by simpa using hn)]
    simp [Nat.zero_mod, Nat.zero_div]
  | succ k ih =>
    intro buf hk
    by_cases h : n ≤ buf.length
    · rw [deframe_cons hn h]
      have hd : (buf.drop n).length = buf.length - n := List.length_drop n buf
      obtain ⟨hjoin, hlen, hres, hcount⟩ := ih (buf.drop n) (by omega)
      refine ⟨?_, ?_, ?_, ?_⟩
      · simp only [List.flatten_cons, List.append_assoc, hjoin,
          List.take_append_drop]
      · intro fr hfr
        rcases List.mem_cons.mp hfr with h1 | h1
        · subst h1
          simp [List.length_take]
          omega
        · exact hlen fr h1
      · simp only [hres, hd]
        exact (Nat.mod_eq_sub_mod h).symm
      · simp only [List.length_cons, hcount, hd]
        rw [Nat.div_eq_sub_div hn h]
    · rw [deframe_stop (show buf.length < n by omega)]
      have h1 : buf.length % n = buf.length :=
        Nat.mod_eq_of_lt (by omega)
      have h2 : buf.length / n = 0 :=
        Nat.div_eq_of_lt (by omega)
      exact ⟨by simp, by simp, by simp [h1], by simp [h2]⟩

/-- Greedy frame extraction is compositional: deframing `x ++ y` first
extracts the frames of `x`, then continues on the residue of `x`
prepended to `y`. -/
lemma deframe_append {α : Type} {n : Nat} (hn : 0 < n) :
    ∀ (k : Nat) (x y : List α), x.length ≤ k →
      deframe n (x ++ y) =
        ((deframe n x).1 ++ (deframe n ((deframe n x).2 ++ y)).1,
          (deframe n ((deframe n x).2 ++ y)).2) := by
  intro k
  induction k with
  | zero =>
    intro x y hk
    have hb : x = [] := List.eq_nil_of_length_eq_zero (Nat.le_zero.mp hk)
    subst hb
    have h0 : deframe n ([] : List α) = ([], []) :=
      deframe_stop (by simpa using hn)
    rw [h0]
    simp
  | succ k ih =>
    intro x y hk
    by_cases h : n ≤ x.length
    · have hxy : n ≤ (x ++ y).length := by
        simp only [List.length_append]; omega
      rw [deframe_cons hn hxy, deframe_cons hn h,
        List.take_append_of_le_length h, List.drop_append_of_le_length h]
      have hd : (x.drop n).length = x.length - n := List.length_drop n x
      rw [ih (x.drop n) y (by omega)]
      simp
    · have h0 : deframe n x = ([], x) :=
        deframe_stop (show x.length < n by omega)
      rw [h0]
      simp

/-- Feeding blocks one at a time through the segmenter equals deframing
the whole concatenation, as long as the starting residue is shorter than
a frame (the invariant the while loop maintains). -/
lemma feedBlocks_eq_deframe :
    ∀ (cs : List (List Nat)) (r : List Nat), r.length < VAD_FRAME_BYTES →
      feedBlocks r cs = deframe VAD_FRAME_BYTES (r ++ cs.flatten) := by
  intro cs
  induction cs with
  | nil =>
    intro r hr
    simp only [feedBlocks, List.flatten_nil, List.append_nil]
    rw [deframe_stop hr]
  | cons c cs ih =>
    intro r hr
    have hn : 0 < VAD_FRAME_BYTES := by decide
    have hres : (deframe VAD_FRAME_BYTES (r ++ c)).2.length
        = (r ++ c).length % VAD_FRAME_BYTES :=
      (deframe_spec hn (r ++ c).length (r ++ c) le_rfl).2.2.1
    have hlt : (deframe VAD_FRAME_BYTES (r ++ c)).2.length < VAD_FRAME_BYTES := by
      rw [hres]
      exact Nat.mod_lt _ hn
    simp only [feedBlocks, feedBlock, List.flatten_cons]
    rw [ih _ hlt]
    rw [show r ++ (c ++ cs.flatten) = (r ++ c) ++ cs.flatten by
      simp [List.append_assoc]]
    rw [deframe_append hn (r ++ c).length (r ++ c) cs.flatten le_rfl]

/-! ## Concrete frames and a scripted VAD oracle for scenario runs -/

/-- A 960-byte frame whose first byte is 1; the scripted oracle
classifies it as speech. -/
def speechFrame : List Nat := 1 :: List.replicate (VAD_FRAME_BYTES - 1) 1

/-- A 960-byte frame of zero bytes; the scripted oracle classifies it as
non-speech. -/
def silenceFrame : List Nat := 0 :: List.replicate (VAD_FRAME_BYTES - 1) 0

/-- A deterministic stand-in for webrtcvad used in scenario runs:
a frame is speech iff its first byte is 1. -/
def headOracle (f : List Nat) : Bool := f.head? == some 1

lemma speechFrame_length : speechFrame.length = VAD_FRAME_BYTES := by
  rw [show speechFrame = 1 :: List.replicate 959 1 from rfl,
    List.length_cons, List.length_replicate]
  rfl

lemma silenceFrame_length : silenceFrame.length = VAD_FRAME_BYTES := by
  rw [show silenceFrame = 0 :: List.replicate 959 0 from rfl,
    List.length_cons, List.length_replicate]
  rfl

/-- The microphone-client enqueue always appends: the queue was built
with maxsize 0 (unbounded), so put_nowait never raises QueueFull. -/
lemma clientWsEnqueue_eq {α : Type} (q : List α) (x : α) :
    clientWsEnqueue q x = q ++ [x] := by
  simp [clientWsEnqueue, queuePutNowait]

/-- Gate step on a speech-classified frame: silence run resets, speaking
set, frame enqueued; the speech-started transition fires iff the gate
was not already speaking. -/
lemma processVadWs_speech (st : GateState) (q : List (List Nat)) :
    processVadWs headOracle true st q speechFrame =
      ⟨⟨true, 0⟩, q ++ [speechFrame], Decision.forward, !st.speaking⟩ := by
  unfold processVadWs
  rw [if_neg (show ¬(speechFrame.length ≠ VAD_FRAME_BYTES) from
    fun hne => hne speechFrame_length)]
  rw [if_pos (show headOracle speechFrame = true from rfl)]
  rw [if_pos (show true = true from rfl)]
  rw [clientWsEnqueue_eq]

/-- Gate step on a silence-classified frame while speaking, within the
trailing-silence window: the run increments and the frame is still
forwarded and enqueued. -/
lemma processVadWs_silence_pad (j : Nat) (q : List (List Nat))
    (h : j + 1 ≤ SILENCE_FRAMES_THRESHOLD) :
    processVadWs headOracle true ⟨true, j⟩ q silenceFrame =
      ⟨⟨true, j + 1⟩, q ++ [silenceFrame], Decision.forward, false⟩ := by
  unfold processVadWs
  rw [if_neg (show ¬(silenceFrame.length ≠ VAD_FRAME_BYTES) from
    fun hne => hne silenceFrame_length)]
  rw [if_neg (show ¬(headOracle silenceFrame = true) from fun hc =>
    Bool.false_ne_true hc)]
  rw [if_pos (show GateState.speaking ⟨true, j⟩ = true from rfl)]
  rw [if_neg (show ¬SILENCE_FRAMES_THRESHOLD < GateState.silenceRun ⟨true, j⟩ + 1
    from by simp only [GateState.silenceRun]; omega)]
  rw [if_pos (show true = true from rfl)]
  rw [clientWsEnqueue_eq]

/-- Gate step on a silence-classified frame while speaking, past the
threshold: speaking clears and the frame is dropped. -/
lemma processVadWs_silence_end (j : Nat) (q : List (List Nat))
    (h : SILENCE_FRAMES_THRESHOLD < j + 1) :
    processVadWs headOracle true ⟨true, j⟩ q silenceFrame =
      ⟨⟨false, j + 1⟩, q, Decision.drop, false⟩ := by
  unfold processVadWs
  rw [if_neg (show ¬(silenceFrame.length ≠ VAD_FRAME_BYTES) from
    fun hne => hne silenceFrame_length)]
  rw [if_neg (show ¬(headOracle silenceFrame = true) from fun hc =>
    Bool.false_ne_true hc)]
  rw [if_pos (show GateState.speaking ⟨true, j⟩ = true from rfl)]
  rw [if_pos (show SILENCE_FRAMES_THRESHOLD < GateState.silenceRun ⟨true, j⟩ + 1
    from by simp only [GateState.silenceRun]; omega)]

/-- A run over k trailing-silence frames from a speaking state with
silence run j, with j + k within the threshold: every frame is forwarded
and enqueued, and the silence run ends at j + k. -/
lemma runVadWs_silence_pad :
    ∀ (k j : Nat) (q : List (List Nat)), j + k ≤ SILENCE_FRAMES_THRESHOLD →
      runVadWs headOracle true ⟨true, j⟩ q (List.replicate k silenceFrame) =
        (⟨true, j + k⟩, q ++ List.replicate k silenceFrame,
          List.replicate k Decision.forward) := by
  intro k
  induction k with
  | zero =>
    intro j q _
    simp [runVadWs]
  | succ k ih =>
    intro j q h
    rw [List.replicate_succ]
    simp only [runVadWs]
    rw [processVadWs_silence_pad j q (by omega)]
    simp only
    rw [ih (j + 1) (q ++ [silenceFrame]) (by omega)]
    have hst : j + 1 + k = j + (k + 1) := by omega
    simp [hst, List.replicate_succ, List.append_assoc]

/-- One-step unfolding of a gate run on an empty frame list. -/
lemma runVadWs_nil (oracle : List Nat → Bool) (enabled : Bool)
    (st : GateState) (q : List (List Nat)) :
    runVadWs oracle enabled st q [] = (st, q, []) := rfl

/-- One-step unfolding of a gate run on a cons of frames. -/
lemma runVadWs_cons (oracle : List Nat → Bool) (enabled : Bool)
    (st : GateState) (q : List (List Nat)) (f : List Nat)
    (fs : List (List Nat)) :
    runVadWs oracle enabled st q (f :: fs) =
      ((runVadWs oracle enabled (processVadWs oracle enabled st q f).state
          (processVadWs oracle enabled st q f).queue fs).1,
        (runVadWs oracle enabled (processVadWs oracle enabled st q f).state
          (processVadWs oracle enabled st q f).queue fs).2.1,
        (processVadWs oracle enabled st q f).decision ::
          (runVadWs oracle enabled (processVadWs oracle enabled st q f).state
            (processVadWs oracle enabled st q f).queue fs).2.2) := rfl

/-- Splitting a gate run at an append of frame lists. -/
lemma runVadWs_append (oracle : List Nat → Bool) (enabled : Bool) :
    ∀ (xs ys : List (List Nat)) (st : GateState) (q : List (List Nat)),
      runVadWs oracle enabled st q (xs ++ ys) =
        ((runVadWs oracle enabled
            (runVadWs oracle enabled st q xs).1
            (runVadWs oracle enabled st q xs).2.1 ys).1,
          (runVadWs oracle enabled
            (runVadWs oracle enabled st q xs).1
            (runVadWs oracle enabled st q xs).2.1 ys).2.1,
          (runVadWs oracle enabled st q xs).2.2 ++
            (runVadWs oracle enabled
              (runVadWs oracle enabled st q xs).1
              (runVadWs oracle enabled st q xs).2.1 ys).2.2) := by
  intro xs
  induction xs with
  | nil => intro ys st q; simp [runVadWs]
  | cons x xs ih =>
    intro ys st q
    simp only [List.cons_append, runVadWs]
    rw [show xs.append ys = xs ++ ys from rfl, ih]

/-! ## Lemmas about the server Active loop -/

/-- Runs of the Active loop compose over concatenated event schedules:
no event makes the loop stop early. -/
lemma runActive_append {ρ : Type} (R : Recognizer ρ) :
    ∀ (e1 e2 : List LoopEvent) (st : ρ),
      runActive R st (e1 ++ e2) =
        ((runActive R (runActive R st e1).1 e2).1,
          (runActive R st e1).2 ++ (runActive R (runActive R st e1).1 e2).2) := by
  intro e1
  induction e1 with
  | nil => intro e2 st; simp [runActive]
  | cons e es ih =>
    intro e2 st
    simp only [List.cons_append, runActive]
    rw [show es.append e2 = es ++ e2 from rfl, ih]
    simp [List.append_assoc]

/-- If FinalResult always reports empty text (nothing buffered in the
engine), a run of timeouts sends nothing. -/
lemma runActive_timeouts_empty {ρ : Type} (R : Recognizer ρ)
    (he : ∀ s : ρ, (R.finalResult s).1 = "") :
    ∀ (n : Nat) (st : ρ),
      (runActive R st (List.replicate n LoopEvent.timeout)).2 = [] := by
  intro n
  induction n with
  | zero => intro st; simp [runActive]
  | succ n ih =>
    intro st
    rw [List.replicate_succ]
    simp only [runActive, loopStep]
    simp [he, ih]

/-- A recognizer whose observations are all empty and that never reports
an utterance boundary; used to instantiate witnesses. -/
def silentRec : Recognizer Unit :=
  ⟨fun _ _ => (false, ()), fun _ => "", fun _ => ("", ()), fun _ => ("", ())⟩

/-- A recognizer that never reports a boundary and always shows the
partial text "a"; exhibits the duplicated partial emission. -/
def constRec : Recognizer Unit :=
  ⟨fun _ _ => (false, ()), fun _ => "a", fun _ => ("", ()), fun _ => ("", ())⟩

/-! ## Claim theorems -/

/-- C1 counterexample: when AcceptWaveform reports no boundary and the
partial text is non-empty, the loop body of src/main.py emits the same
Partial message twice for the one chunk, not exactly once: the partial
is sent at lines 164-165 and recomputed and re-sent at lines 173-178. -/
theorem C1_counterexample :
    constRec.partialResult () ≠ "" ∧
    (chunkStep constRec () []).2 =
      [ServerMsg.partialMsg "a", ServerMsg.partialMsg "a"] ∧
    (chunkStep constRec () []).2.countP isPartialMsg ≠ 1 := by
  refine ⟨by decide, by decide, by decide⟩

/-- C1 amended: per received chunk, the number of Partial messages is 0
if the partial text is empty, 1 if the boundary flag was true, and 2
(the same text twice) if it was false; a Final message is emitted iff
the boundary flag was true and Result returned non-empty text; the
resulting engine state is Result's when the boundary fired and
AcceptWaveform's otherwise. -/
theorem C1_amended_chunk_messages {ρ : Type} (R : Recognizer ρ) (st : ρ)
    (data : List Nat) :
    ((chunkStep R st data).2.countP isPartialMsg =
      if R.partialResult (R.acceptWaveform st data).2 = "" then 0
      else if (R.acceptWaveform st data).1 then 1 else 2) ∧
    ((chunkStep R st data).2.filter isFinalMsg =
      if (R.acceptWaveform st data).1 = true ∧
          (R.result (R.acceptWaveform st data).2).1 ≠ "" then
        [ServerMsg.finalMsg (R.result (R.acceptWaveform st data).2).1]
      else []) ∧
    ((chunkStep R st data).1 =
      if (R.acceptWaveform st data).1 then (R.result (R.acceptWaveform st data).2).2
      else (R.acceptWaveform st data).2) := by
  rcases hA : R.acceptWaveform st data with ⟨processed, st1⟩
  simp only [chunkStep, hA]
  cases processed with
  | false =>
    by_cases hp : R.partialResult st1 = "" <;>
      simp [hp, isPartialMsg, isFinalMsg]
  | true =>
    rcases hR : R.result st1 with ⟨t, st2⟩
    by_cases hp : R.partialResult st1 = "" <;>
      by_cases ht : t = "" <;>
        simp [hp, ht, hR, isPartialMsg, isFinalMsg]

/-- C3 counterexample: the Active loop exits caused by an inbound
ConnectionClosedOK close frame, by a ConnectionClosedError stream error,
or by a generic exception all reach teardown WITHOUT computing
Recognizer.finalResult (src/main.py lines 195-204); only the
WebSocketDisconnect handler computes it. -/
theorem C3_counterexample :
    (sessionTeardown "hello" (ExitCause.closedError 1006)).1 = false ∧
    (sessionTeardown "hello" ExitCause.closedOK).1 = false ∧
    (sessionTeardown "hello" ExitCause.otherError).1 = false ∧
    (sessionTeardown "hello" (ExitCause.wsDisconnect 1000)).1 = true := by
  refine ⟨rfl, rfl, rfl, rfl⟩

/-- C3 amended: finalResult is computed exactly on the
WebSocketDisconnect exit path, where its text is logged iff non-empty;
the ConnectionClosedOK, ConnectionClosedError and generic-exception exit
paths reach Closed without computing finalResult, the generic path
attempting close code 1011. -/
theorem C3_amended_finalize_only_on_disconnect (finalText : String)
    (c : ExitCause) :
    ((sessionTeardown finalText c).1 = true ↔
      ∃ code, c = ExitCause.wsDisconnect code) ∧
    ((sessionTeardown finalText c).2.1 = true ↔
      (∃ code, c = ExitCause.wsDisconnect code) ∧ finalText ≠ "") ∧
    ((sessionTeardown finalText c).2.2 = some 1011 ↔
      c = ExitCause.otherError) := by
  cases c <;> simp [sessionTeardown]

/-- C4: a connection requesting a language code not among the loaded
models is closed with code 1008 and a human-readable reason, before the
websocket is accepted and without a KaldiRecognizer ever being
constructed (src/main.py lines 135-138). -/
theorem C4_unsupported_language_rejected (loadedLangs : List String)
    (langCode : String) (h : langCode ∉ loadedLangs) :
    connectionSetup loadedLangs langCode =
      (SetupOutcome.rejected 1008 ("Unsupported language: " ++ langCode),
        false) := by
  simp [connectionSetup, h]

/-- Witness for C4 at the spec's example: requesting "xx" when only
"en" and "vi" are loaded. -/
theorem C4_unsupported_language_rejected_witness :
    connectionSetup ["en", "vi"] "xx" =
      (SetupOutcome.rejected 1008 ("Unsupported language: " ++ "xx"), false) :=
  C4_unsupported_language_rejected ["en", "vi"] "xx" (by decide)

/-- C5: a receive timeout computes FinalResult and emits a Final message
iff its text is non-empty; the timeout is non-exceptional control flow -
runs compose over concatenated schedules, so a timeout never ends the
loop - and any number of timeouts against an engine whose buffer stays
empty produces no outbound messages. -/
theorem C5_timeout_finalization {ρ : Type} (R : Recognizer ρ) (st : ρ)
    (evts1 evts2 : List LoopEvent) (n : Nat) :
    ((R.finalResult st).1 ≠ "" →
      (loopStep R st LoopEvent.timeout).2 =
        [ServerMsg.finalMsg (R.finalResult st).1]) ∧
    ((R.finalResult st).1 = "" →
      (loopStep R st LoopEvent.timeout).2 = []) ∧
    (runActive R st (evts1 ++ evts2) =
      ((runActive R (runActive R st evts1).1 evts2).1,
        (runActive R st evts1).2 ++
          (runActive R (runActive R st evts1).1 evts2).2)) ∧
    ((∀ s : ρ, (R.finalResult s).1 = "") →
      (runActive R st (List.replicate n LoopEvent.timeout)).2 = []) := by
  refine ⟨fun h => ?_, fun h => ?_, runActive_append R evts1 evts2 st,
    fun he => runActive_timeouts_empty R he n st⟩
  · simp [loopStep, h]
  · simp [loopStep, h]

/-- Witness for C5 with the all-empty recognizer: one timeout emits
nothing, and three timeouts in a row emit nothing. -/
theorem C5_timeout_finalization_witness :
    (loopStep silentRec () LoopEvent.timeout).2 = [] ∧
    (runActive silentRec () (List.replicate 3 LoopEvent.timeout)).2 = [] :=
  ⟨(C5_timeout_finalization silentRec () [] [] 3).2.1 rfl,
    (C5_timeout_finalization silentRec () [] [] 3).2.2.2 (fun _ => rfl)⟩

/-- C2 counterexample: the microphone client's queue is constructed as
asyncio.Queue() with maxsize 0, so put_nowait never raises QueueFull and
the except-pass drop branch is dead: enqueueing onto a queue already
holding 50 items (or 1000) appends instead of dropping, so no bounded
capacity is ever enforced. -/
theorem C2_counterexample :
    (clientWsEnqueue (List.replicate 50 (0 : Nat)) 0).length = 51 ∧
    (clientWsEnqueue (List.replicate 1000 (0 : Nat)) 0).length = 1001 := by
  constructor
  · rw [clientWsEnqueue_eq, List.length_append, List.length_replicate]
    rfl
  · rw [clientWsEnqueue_eq, List.length_append, List.length_replicate]
    rfl

/-- C2 amended: neither client's enqueue blocks (both are total,
immediate operations). The desktop client's producer drops the frame
when the queue already holds 50 or more items and so preserves the bound
of 50; the microphone client's enqueue always appends - its queue is
unbounded and nothing is ever dropped. -/
theorem C2_amended_enqueue_policies {α : Type} (q : List α) (x : α) :
    clientWsEnqueue q x = q ++ [x] ∧
    (50 ≤ q.length → desktopEnqueue q x = q) ∧
    (q.length < 50 → desktopEnqueue q x = q ++ [x]) ∧
    (q.length ≤ 50 → (desktopEnqueue q x).length ≤ 50) := by
  refine ⟨clientWsEnqueue_eq q x, fun h => ?_, fun h => ?_, fun h => ?_⟩
  · unfold desktopEnqueue
    rw [if_neg (by omega)]
  · unfold desktopEnqueue
    rw [if_pos h]
  · unfold desktopEnqueue
    by_cases h2 : q.length < 50
    · rw [if_pos h2]
      simp only [List.length_append, List.length_singleton]
      omega
    · rw [if_neg h2]
      omega

/-- Witness for C2 amended at a full desktop queue of 50 items. -/
theorem C2_amended_enqueue_policies_witness :
    clientWsEnqueue (List.replicate 50 (0 : Nat)) 0 =
      List.replicate 50 0 ++ [0] ∧
    desktopEnqueue (List.replicate 50 (0 : Nat)) 0 = List.replicate 50 0 :=
  ⟨(C2_amended_enqueue_policies _ _).1,
    (C2_amended_enqueue_policies _ _).2.1 (by simp)⟩

/-- C8 counterexample: the microphone client (src/Clients/Client-Ws.py
audio_callback) performs no NaN/Inf detection: a malformed block of one
frame's worth of bytes is segmented anyway and emits a frame, instead of
being skipped. -/
theorem C8_counterexample :
    (⟨true, silenceFrame⟩ : Block).malformed = true ∧
    (clientWsCaptureStep [] ⟨true, silenceFrame⟩).1.length = 1 := by
  refine ⟨rfl, ?_⟩
  show (feedBlock [] silenceFrame).1.length = 1
  unfold feedBlock
  rw [List.nil_append]
  have hn : 0 < VAD_FRAME_BYTES := by decide
  have hc := (deframe_spec hn silenceFrame.length silenceFrame le_rfl).2.2.2
  rw [hc, silenceFrame_length]
  exact Nat.div_self hn

/-- C8 amended: the desktop-audio client skips a malformed block
entirely - no frames are emitted and the residue is unchanged - and
segments valid blocks; the microphone client segments every block
unconditionally, malformed or not. -/
theorem C8_amended_malformed_block_handling (residue : List Nat) (b : Block) :
    (b.malformed = true → desktopCaptureStep residue b = ([], residue)) ∧
    (b.malformed = false →
      desktopCaptureStep residue b = feedBlock residue b.payload) ∧
    clientWsCaptureStep residue b = feedBlock residue b.payload := by
  refine ⟨fun h => ?_, fun h => ?_, rfl⟩
  · simp [desktopCaptureStep, h]
  · simp [desktopCaptureStep, h]

/-- Witness for C8 amended: a malformed block against a one-byte residue
is skipped by the desktop client. -/
theorem C8_amended_malformed_block_handling_witness :
    desktopCaptureStep [1] ⟨true, [2, 3]⟩ = ([], [1]) :=
  (C8_amended_malformed_block_handling [1] ⟨true, [2, 3]⟩).1 rfl

/-- C10: a frame whose byte length is not VAD_FRAME_BYTES makes
process_vad return immediately in both clients: gate state and queue are
untouched, nothing is enqueued, no decision taken. -/
theorem C10_wrong_frame_size_no_effect (oracle : List Nat → Bool)
    (sendEnabled loopRunning : Bool) (st : GateState) (q : List (List Nat))
    (frame : List Nat) (h : frame.length ≠ VAD_FRAME_BYTES) :
    processVadWs oracle sendEnabled st q frame =
      ⟨st, q, Decision.drop, false⟩ ∧
    processVadDesktop oracle sendEnabled loopRunning st q frame =
      ⟨st, q, Decision.drop, false⟩ := by
  constructor
  · unfold processVadWs
    rw [if_pos h]
  · unfold processVadDesktop
    rw [if_pos h]

/-- Witness for C10 at the empty frame (length 0, not 960). -/
theorem C10_wrong_frame_size_no_effect_witness :
    processVadWs (fun _ => true) true ⟨true, 3⟩ [] [] =
      ⟨⟨true, 3⟩, [], Decision.drop, false⟩ ∧
    processVadDesktop (fun _ => true) true true ⟨true, 3⟩ [] [] =
      ⟨⟨true, 3⟩, [], Decision.drop, false⟩ :=
  C10_wrong_frame_size_no_effect (fun _ => true) true true ⟨true, 3⟩ [] []
    (by decide)

/-- C9: disabling ToggleFlag changes neither the gate state transition
nor the decision in either client, and suppresses every enqueue; and a
speech frame arriving while already speaking never re-fires the
speech-started transition, so re-enabling mid-utterance resumes
forwarding (the frame is enqueued again) without a spurious start. -/
theorem C9_toggle_gating (oracle : List Nat → Bool) (loopRunning : Bool)
    (st : GateState) (q : List (List Nat)) (frame : List Nat) :
    ((processVadWs oracle false st q frame).state =
      (processVadWs oracle true st q frame).state) ∧
    ((processVadWs oracle false st q frame).decision =
      (processVadWs oracle true st q frame).decision) ∧
    ((processVadWs oracle false st q frame).queue = q) ∧
    ((processVadDesktop oracle false loopRunning st q frame).state =
      (processVadDesktop oracle true loopRunning st q frame).state) ∧
    ((processVadDesktop oracle false loopRunning st q frame).queue = q) ∧
    (st.speaking = true →
      (processVadWs oracle true st q frame).speechStarted = false) ∧
    (st.speaking = true → oracle frame = true →
      frame.length = VAD_FRAME_BYTES →
      (processVadWs oracle true st q frame).queue = q ++ [frame]) := by
  unfold processVadWs processVadDesktop
  refine ⟨?_, ?_, ?_, ?_, ?_, ?_, ?_⟩ <;>
    (split_ifs <;> simp_all [clientWsEnqueue_eq])

/-- Witness for C9 mid-utterance: with the gate already speaking, a
speech frame with the toggle enabled is enqueued and fires no
speech-started transition. -/
theorem C9_toggle_gating_witness :
    (processVadWs headOracle true ⟨true, 0⟩ [] speechFrame).speechStarted
        = false ∧
    (processVadWs headOracle true ⟨true, 0⟩ [] speechFrame).queue =
      [] ++ [speechFrame] :=
  ⟨(C9_toggle_gating headOracle true ⟨true, 0⟩ [] speechFrame).2.2.2.2.2.1 rfl,
    (C9_toggle_gating headOracle true ⟨true, 0⟩ [] speechFrame).2.2.2.2.2.2 rfl
      rfl speechFrame_length⟩

/-- C6: gate hysteresis. For a correctly sized frame: a speech frame
resets the silence run to 0, sets speaking, and is forwarded; a
non-speech frame while speaking increments the run and is forwarded
while the incremented run is at or under the threshold, while beyond the
threshold speaking clears and the frame is dropped. Scenario: from the
idle gate, speech, speech, silence x k with k at or under the threshold
forwards every frame; with the threshold run of silence followed by one
more silence frame, that first frame beyond the threshold is dropped and
speaking ends false. -/
theorem C6_gate_hysteresis (oracle : List Nat → Bool) (e : Bool)
    (st : GateState) (q : List (List Nat)) (frame : List Nat) (k : Nat)
    (hlen : frame.length = VAD_FRAME_BYTES)
    (hk : k ≤ SILENCE_FRAMES_THRESHOLD) :
    (oracle frame = true →
      (processVadWs oracle e st q frame).state = ⟨true, 0⟩ ∧
      (processVadWs oracle e st q frame).decision = Decision.forward) ∧
    (oracle frame = false → st.speaking = true →
      (processVadWs oracle e st q frame).state.silenceRun =
        st.silenceRun + 1 ∧
      (st.silenceRun + 1 ≤ SILENCE_FRAMES_THRESHOLD →
        (processVadWs oracle e st q frame).decision = Decision.forward ∧
        (processVadWs oracle e st q frame).state.speaking = true) ∧
      (SILENCE_FRAMES_THRESHOLD < st.silenceRun + 1 →
        (processVadWs oracle e st q frame).decision = Decision.drop ∧
        (processVadWs oracle e st q frame).state.speaking = false)) ∧
    ((runVadWs headOracle true ⟨false, 0⟩ []
        (speechFrame :: speechFrame :: List.replicate k silenceFrame)).2.2 =
      List.replicate (k + 2) Decision.forward) ∧
    ((runVadWs headOracle true ⟨false, 0⟩ []
        (speechFrame :: speechFrame ::
          (List.replicate SILENCE_FRAMES_THRESHOLD silenceFrame ++
            [silenceFrame]))).2.2 =
      List.replicate (SILENCE_FRAMES_THRESHOLD + 2) Decision.forward ++
        [Decision.drop]) ∧
    ((runVadWs headOracle true ⟨false, 0⟩ []
        (speechFrame :: speechFrame ::
          (List.replicate SILENCE_FRAMES_THRESHOLD silenceFrame ++
            [silenceFrame]))).1.speaking = false) := by
  have hover : runVadWs headOracle true ⟨false, 0⟩ []
      (speechFrame :: speechFrame ::
        (List.replicate SILENCE_FRAMES_THRESHOLD silenceFrame ++
          [silenceFrame])) =
      (⟨false, SILENCE_FRAMES_THRESHOLD + 1⟩,
        [speechFrame, speechFrame] ++
          List.replicate SILENCE_FRAMES_THRESHOLD silenceFrame,
        Decision.forward :: Decision.forward ::
          (List.replicate SILENCE_FRAMES_THRESHOLD Decision.forward ++
            [Decision.drop])) := by
    rw [runVadWs_cons]
    rw [processVadWs_speech ⟨false, 0⟩ []]
    simp only
    rw [runVadWs_cons]
    rw [processVadWs_speech ⟨true, 0⟩ ([] ++ [speechFrame])]
    simp only
    rw [runVadWs_append headOracle true
      (List.replicate SILENCE_FRAMES_THRESHOLD silenceFrame) [silenceFrame]]
    rw [runVadWs_silence_pad SILENCE_FRAMES_THRESHOLD 0
      (([] ++ [speechFrame]) ++ [speechFrame]) (by omega)]
    simp only [Nat.zero_add]
    rw [runVadWs_cons]
    rw [processVadWs_silence_end SILENCE_FRAMES_THRESHOLD _
      (by omega)]
    simp [runVadWs_nil]
  refine ⟨fun ho => ?_, fun ho hsp => ?_, ?_, ?_, ?_⟩
  · unfold processVadWs
    rw [if_neg (fun hne => hne hlen), if_pos ho]
    exact ⟨rfl, rfl⟩
  · unfold processVadWs
    rw [if_neg (fun hne => hne hlen),
      if_neg (show ¬(oracle frame = true) by simp [ho]),
      if_pos hsp]
    refine ⟨?_, fun h2 => ?_, fun h3 => ?_⟩
    · split_ifs <;> rfl
    · rw [if_neg (by omega)]
      exact ⟨rfl, rfl⟩
    · rw [if_pos h3]
      exact ⟨rfl, rfl⟩
  · rw [runVadWs_cons]
    rw [processVadWs_speech ⟨false, 0⟩ []]
    simp only
    rw [runVadWs_cons]
    rw [processVadWs_speech ⟨true, 0⟩ ([] ++ [speechFrame])]
    simp only
    rw [runVadWs_silence_pad k 0 (([] ++ [speechFrame]) ++ [speechFrame])
      (by omega)]
    rw [show k + 2 = (k + 1) + 1 from rfl, List.replicate_succ,
      List.replicate_succ]
  · rw [hover]
    rw [show SILENCE_FRAMES_THRESHOLD + 2 =
        (SILENCE_FRAMES_THRESHOLD + 1) + 1 from rfl,
      List.replicate_succ, List.replicate_succ]
    simp
  · rw [hover]

/-- Witness for C6 with the scripted oracle, a speech frame while
already speaking, and k = 3 trailing-silence frames. -/
theorem C6_gate_hysteresis_witness :
    ((processVadWs headOracle true ⟨true, 0⟩ [] speechFrame).state =
      ⟨true, 0⟩ ∧
     (processVadWs headOracle true ⟨true, 0⟩ [] speechFrame).decision =
      Decision.forward) ∧
    ((runVadWs headOracle true ⟨false, 0⟩ []
        (speechFrame :: speechFrame :: List.replicate 3 silenceFrame)).2.2 =
      List.replicate 5 Decision.forward) :=
  ⟨(C6_gate_hysteresis headOracle true ⟨true, 0⟩ [] speechFrame 3
      speechFrame_length (by decide)).1 rfl,
    (C6_gate_hysteresis headOracle true ⟨true, 0⟩ [] speechFrame 3
      speechFrame_length (by decide)).2.2.1⟩

/-- C7: when the total length of the input chunks is a multiple of the
frame size, the segmenter run from an empty residue emits exactly
total / frameSize frames, each of exactly VAD_FRAME_BYTES bytes, whose
concatenation is the input in original order, and the residue ends
empty - no partial frame is ever emitted. -/
theorem C7_segmenter_exact_multiple (chunks : List (List Nat))
    (h : (chunks.map List.length).sum % VAD_FRAME_BYTES = 0) :
    (feedBlocks [] chunks).1.length =
      (chunks.map List.length).sum / VAD_FRAME_BYTES ∧
    (∀ fr ∈ (feedBlocks [] chunks).1, fr.length = VAD_FRAME_BYTES) ∧
    (feedBlocks [] chunks).1.flatten = chunks.flatten ∧
    (feedBlocks [] chunks).2 = [] := by
  have hn : 0 < VAD_FRAME_BYTES := by decide
  rw [feedBlocks_eq_deframe chunks [] (by decide), List.nil_append]
  obtain ⟨hjoin, hlen, hres, hcount⟩ :=
    deframe_spec hn chunks.flatten.length chunks.flatten le_rfl
  have hflatlen : chunks.flatten.length = (chunks.map List.length).sum :=
    List.length_flatten chunks
  have hres0 : (deframe VAD_FRAME_BYTES chunks.flatten).2 = [] := by
    apply List.eq_nil_of_length_eq_zero
    rw [hres, hflatlen, h]
  refine ⟨?_, hlen, ?_, hres0⟩
  · rw [hcount, hflatlen]
  · rw [hres0, List.append_nil] at hjoin
    exact hjoin

set_option maxRecDepth 4000 in
/-- Witness for C7: two 480-byte chunks totalling exactly one frame. -/
theorem C7_segmenter_exact_multiple_witness :
    ((([List.replicate 480 0, List.replicate 480 1] :
        List (List Nat)).map List.length).sum % VAD_FRAME_BYTES = 0) ∧
    (feedBlocks [] [List.replicate 480 0, List.replicate 480 1]).2 = [] :=
  ⟨by decide,
    (C7_segmenter_exact_multiple [List.replicate 480 0, List.replicate 480 1]
      (by decide)).2.2.2⟩

end SpeakToText
